import Mathlib

/-!
Verification of the world-map shape component (ratatui-widgets, canvas/map.rs).

The file embeds the data model and operations of the component:
`MapResolution` (the Low/High resolution tier), its display/parse round trip,
the `Map` value object, and the `draw` loop over the selected static dataset.
The Painter collaborator, the color model and the raw coordinate tables live
outside the embedded source file; they are modelled from the specification,
with doc comments marking each such definition.
-/

/-- Modelled from the spec: the color model is an external collaborator
(ratatui-core's Color, not part of this development).  Only the reset/no-op
sentinel and the existence of other distinguishable colors matter here. -/
inductive Color where
  | Reset : Color
  | Indexed : Nat → Color
deriving DecidableEq

/-- Modelled from the spec: the default color is the reset/no-op sentinel. -/
def Color.default : Color := Color.Reset

/-- The resolution tier enum from canvas/map.rs: exactly the two variants
Low and High. -/
inductive MapResolution where
  | Low : MapResolution
  | High : MapResolution
deriving DecidableEq

/-- The derived Default for MapResolution: the Low variant carries the
default attribute in the source. -/
def MapResolution.default : MapResolution := MapResolution.Low

/-- Modelled from the spec: WORLD_LOW_RESOLUTION lives in canvas/world.rs,
which is not part of this development.  The spec describes it as an opaque,
immutable, ordered table of about 1000 world-coordinate pairs in the
longitude/latitude-like range; representative in-range values stand in for
the pre-baked coordinates. -/
def WORLD_LOW_RESOLUTION : List (Rat × Rat) :=
  (List.range 1000).map
    (fun i => (((i % 360 : Nat) : Rat) - 180, ((i % 180 : Nat) : Rat) - 90))

/-- Modelled from the spec: WORLD_HIGH_RESOLUTION lives in canvas/world.rs,
which is not part of this development.  The spec describes it as an opaque,
immutable, ordered table of about 5000 world-coordinate pairs, strictly
larger than the low-resolution table. -/
def WORLD_HIGH_RESOLUTION : List (Rat × Rat) :=
  (List.range 5000).map
    (fun i => (((i % 360 : Nat) : Rat) - 180, ((i % 180 : Nat) : Rat) - 90))

/-- MapResolution::data from canvas/map.rs: a match selecting one of the two
static datasets. -/
def MapResolution.data : MapResolution → List (Rat × Rat)
  | MapResolution.Low => WORLD_LOW_RESOLUTION
  | MapResolution.High => WORLD_HIGH_RESOLUTION

/-- The parse error type of the derived FromStr (strum's ParseError): a
single variant, VariantNotFound, as pinned by the unit tests in
canvas/map.rs. -/
inductive ParseError where
  | VariantNotFound : ParseError
deriving DecidableEq

/-- The derived Display for MapResolution: each variant displays as its
canonical name, as pinned by the map_resolution_to_string test. -/
def MapResolution.toDisplayName : MapResolution → String
  | MapResolution.Low => "Low"
  | MapResolution.High => "High"

/-- The derived FromStr for MapResolution: parses exactly the two canonical
variant names and fails with VariantNotFound on anything else, as pinned by
the map_resolution_from_str test. -/
def MapResolution.parse (s : String) : Except ParseError MapResolution :=
  if s = "Low" then Except.ok MapResolution.Low
  else if s = "High" then Except.ok MapResolution.High
  else Except.error ParseError.VariantNotFound

/-- The Map value object from canvas/map.rs: a resolution tier and a
color. -/
structure Map where
  resolution : MapResolution
  color : Color
deriving DecidableEq

/-- The derived Default for Map: field-wise defaults, as pinned by the
default test (resolution Low, color Reset). -/
def Map.default : Map :=
  { resolution := MapResolution.default, color := Color.default }

/-- Modelled from the spec: the Painter collaborator (canvas/mod.rs, not part
of this development).  It carries the configured world bounds, the discrete
screen resolution, and the painted surface, modelled as an association list
from screen cell to color. -/
structure Painter where
  xmin : Rat
  xmax : Rat
  ymin : Rat
  ymax : Rat
  width : Nat
  height : Nat
  cells : List ((Nat × Nat) × Color)
deriving DecidableEq

/-- Reads the color painted at a cell of the surface, if any. -/
def lookupCell : List ((Nat × Nat) × Color) → (Nat × Nat) → Option Color
  | [], _ => none
  | e :: rest, c => if e.1 = c then some e.2 else lookupCell rest c

/-- Writes a color at a cell of the surface, overwriting any previous mark at
that cell and leaving every other cell unchanged. -/
def setCell : List ((Nat × Nat) × Color) → (Nat × Nat) → Color → List ((Nat × Nat) × Color)
  | [], c, col => [(c, col)]
  | e :: rest, c, col => if e.1 = c then (c, col) :: rest else e :: setCell rest c col

/-- Modelled from the spec: Painter::get_point maps a world coordinate inside
the configured visible rectangle to a discrete cell, returning none outside
the bounds; it is a deterministic function of the painter configuration and
the coordinate, and never reads the painted surface. -/
def Painter.get_point (p : Painter) (x y : Rat) : Option (Nat × Nat) :=
  if x < p.xmin ∨ x > p.xmax ∨ y < p.ymin ∨ y > p.ymax then none
  else
    let w := p.xmax - p.xmin
    let h := p.ymax - p.ymin
    if w = 0 ∨ h = 0 then none
    else
      some (((x - p.xmin) * ((p.width : Rat) - 1) / w).floor.toNat,
            ((p.ymax - y) * ((p.height : Rat) - 1) / h).floor.toNat)

/-- Modelled from the spec: Painter::paint marks the given cell with the
given color, overwriting any previous mark; it touches nothing but the
painted surface. -/
def Painter.paint (p : Painter) (cx cy : Nat) (col : Color) : Painter :=
  { p with cells := setCell p.cells (cx, cy) col }

/-- The body of Shape::draw for Map from canvas/map.rs: iterate the selected
dataset in order; for each point ask the painter for a screen cell and, when
one is returned, paint it with the shape's color; otherwise continue. -/
def drawAux (col : Color) : List (Rat × Rat) → Painter → Painter
  | [], p => p
  | pt :: rest, p =>
    match p.get_point pt.1 pt.2 with
    | some sc => drawAux col rest (p.paint sc.1 sc.2 col)
    | none => drawAux col rest p

/-- Shape::draw for Map from canvas/map.rs. -/
def Map.draw (m : Map) (p : Painter) : Painter :=
  drawAux m.color m.resolution.data p

/-- A fuel-indexed variant of the draw loop, used to state that draw
completes in exactly one iteration per dataset element: it consumes one unit
of fuel per point and fails when the fuel runs out before the dataset. -/
def drawFuel (col : Color) : Nat → List (Rat × Rat) → Painter → Option Painter
  | _, [], p => some p
  | 0, _ :: _, _ => none
  | fuel + 1, pt :: rest, p =>
    match p.get_point pt.1 pt.2 with
    | some sc => drawFuel col fuel rest (p.paint sc.1 sc.2 col)
    | none => drawFuel col fuel rest p

/-- A concrete painter with the world bounds named by the spec and a fixed
screen size, used to instantiate universally quantified theorems. -/
def demoPainter : Painter :=
  { xmin := -180, xmax := 180, ymin := -90, ymax := 90,
    width := 80, height := 40, cells := [] }

/-! Helper lemmas about the painted surface and the draw loop. -/

theorem lookupCell_setCell (g : List ((Nat × Nat) × Color)) (c c' : Nat × Nat) (col : Color) :
    lookupCell (setCell g c col) c' = if c = c' then some col else lookupCell g c' := by
  induction g with
  | nil => simp [setCell, lookupCell]
  | cons e rest ih =>
    by_cases he : e.1 = c
    · subst he
      by_cases hc : e.1 = c'
      · subst hc
        simp [setCell, lookupCell]
      · simp [setCell, lookupCell, hc]
    · by_cases hc : e.1 = c'
      · subst hc
        have hne : ¬ c = e.1 := fun h => he h.symm
        simp [setCell, lookupCell, he, hne]
      · simp [setCell, lookupCell, he, hc, ih]

theorem setCell_eq_of_lookup (g : List ((Nat × Nat) × Color)) (c : Nat × Nat) (col : Color)
    (h : lookupCell g c = some col) : setCell g c col = g := by
  induction g with
  | nil => simp [lookupCell] at h
  | cons e rest ih =>
    by_cases he : e.1 = c
    · simp only [lookupCell, he, if_pos] at h
      have : e = (c, col) := by
        cases e with
        | mk a b =>
          simp only at he
          simp only [Option.some.injEq] at h
          simp [he, h]
      simp [setCell, he, this]
    · simp only [lookupCell, he, if_neg, if_false] at h
      simp [setCell, he, ih h]

theorem get_point_paint (p : Painter) (a b : Nat) (col : Color) (x y : Rat) :
    (p.paint a b col).get_point x y = p.get_point x y := rfl

theorem get_point_drawAux (col : Color) (l : List (Rat × Rat)) (p : Painter) (x y : Rat) :
    (drawAux col l p).get_point x y = p.get_point x y := by
  induction l generalizing p with
  | nil => rfl
  | cons pt rest ih =>
    simp only [drawAux]
    cases hgp : p.get_point pt.1 pt.2 with
    | none => exact ih p
    | some sc => exact ih (p.paint sc.1 sc.2 col)

theorem drawAux_projs (col : Color) (l : List (Rat × Rat)) (p : Painter) :
    (drawAux col l p).xmin = p.xmin ∧ (drawAux col l p).xmax = p.xmax ∧
    (drawAux col l p).ymin = p.ymin ∧ (drawAux col l p).ymax = p.ymax ∧
    (drawAux col l p).width = p.width ∧ (drawAux col l p).height = p.height := by
  induction l generalizing p with
  | nil => exact ⟨rfl, rfl, rfl, rfl, rfl, rfl⟩
  | cons pt rest ih =>
    simp only [drawAux]
    cases hgp : p.get_point pt.1 pt.2 with
    | none => exact ih p
    | some sc => exact ih (p.paint sc.1 sc.2 col)

theorem drawAux_lookup (col : Color) (l : List (Rat × Rat)) (p : Painter) (c : Nat × Nat) :
    lookupCell (drawAux col l p).cells c =
      if l.any (fun pt => decide (p.get_point pt.1 pt.2 = some c)) then some col
      else lookupCell p.cells c := by
  induction l generalizing p with
  | nil => simp [drawAux]
  | cons pt rest ih =>
    cases hgp : p.get_point pt.1 pt.2 with
    | none =>
      simp only [drawAux, List.any_cons, hgp]
      rw [ih p]
      simp only [reduceCtorEq, decide_False, Bool.false_or]
    | some sc =>
      simp only [drawAux, List.any_cons, hgp]
      rw [ih (p.paint sc.1 sc.2 col)]
      simp only [get_point_paint]
      by_cases hrest : rest.any (fun pt => decide (p.get_point pt.1 pt.2 = some c)) = true
      · simp [hrest]
      · simp only [Bool.not_eq_true] at hrest
        simp only [hrest, Bool.or_false]
        by_cases hsc : sc = c
        · subst hsc
          simp [Painter.paint, lookupCell_setCell]
        · simp [Painter.paint, lookupCell_setCell, hsc]

theorem drawAux_eq_of_painted (col : Color) (l : List (Rat × Rat)) (p : Painter)
    (h : ∀ pt ∈ l, ∀ sc, p.get_point pt.1 pt.2 = some sc → lookupCell p.cells sc = some col) :
    drawAux col l p = p := by
  induction l with
  | nil => rfl
  | cons pt rest ih =>
    cases hgp : p.get_point pt.1 pt.2 with
    | none =>
      simp only [drawAux, hgp]
      exact ih (fun pt' hmem sc hsc => h pt' (List.mem_cons_of_mem pt hmem) sc hsc)
    | some sc =>
      have hcells : lookupCell p.cells sc = some col :=
        h pt (List.mem_cons_self pt rest) sc hgp
      have hpaint : p.paint sc.1 sc.2 col = p := by
        show { p with cells := setCell p.cells (sc.1, sc.2) col } = p
        rw [show (sc.1, sc.2) = sc from rfl, setCell_eq_of_lookup p.cells sc col hcells]
      simp only [drawAux, hgp, hpaint]
      exact ih (fun pt' hmem sc' hsc => h pt' (List.mem_cons_of_mem pt hmem) sc' hsc)

theorem drawFuel_exact (col : Color) (l : List (Rat × Rat)) (p : Painter) :
    drawFuel col l.length l p = some (drawAux col l p) := by
  induction l generalizing p with
  | nil => rfl
  | cons pt rest ih =>
    cases hgp : p.get_point pt.1 pt.2 with
    | none => simp only [drawFuel, drawAux, List.length_cons, hgp, ih]
    | some sc => simp only [drawFuel, drawAux, List.length_cons, hgp, ih]

theorem drawFuel_isSome_iff (col : Color) (l : List (Rat × Rat)) (fuel : Nat) (p : Painter) :
    (drawFuel col fuel l p).isSome = true ↔ l.length ≤ fuel := by
  induction l generalizing fuel p with
  | nil => simp [drawFuel]
  | cons pt rest ih =>
    cases fuel with
    | zero => simp [drawFuel]
    | succ n =>
      cases hgp : p.get_point pt.1 pt.2 with
      | none =>
        simp only [drawFuel, hgp, List.length_cons, Nat.succ_le_succ_iff]
        exact ih n p
      | some sc =>
        simp only [drawFuel, hgp, List.length_cons, Nat.succ_le_succ_iff]
        exact ih n (p.paint sc.1 sc.2 col)

/-! Claim theorems. -/

/-- C1: draw visits every dataset point of the selected resolution; a point
that get_point maps to a screen cell is painted with the shape's color, a
point that get_point declines to map contributes nothing and aborts nothing:
after draw, the surface holds the shape's color exactly at the cells some
dataset point maps to and is unchanged everywhere else, so no out-of-bounds
point ever produces a painted cell. -/
theorem draw_paints_exactly_mapped_points (m : Map) (p : Painter) (c : Nat × Nat) :
    lookupCell (m.draw p).cells c =
      if (m.resolution.data).any (fun pt => decide (p.get_point pt.1 pt.2 = some c)) then
        some m.color
      else lookupCell p.cells c :=
  drawAux_lookup m.color m.resolution.data p c

/-- C2: dataset selection is total and pure with no error path: both
enumerated resolutions map to non-empty datasets, the Low and High lengths
are fixed and distinct, and High is strictly larger. -/
theorem data_total_nonempty_high_larger :
    0 < MapResolution.Low.data.length ∧ 0 < MapResolution.High.data.length ∧
    MapResolution.Low.data.length ≠ MapResolution.High.data.length ∧
    MapResolution.Low.data.length < MapResolution.High.data.length := by
  simp [MapResolution.data, WORLD_LOW_RESOLUTION, WORLD_HIGH_RESOLUTION]

/-- C3: display and parse form an inverse pair over the two canonical names:
parsing the display name of each tier returns that tier, and parsing then
displaying each canonical name returns that name unchanged. -/
theorem resolution_name_round_trip :
    (∀ t : MapResolution, MapResolution.parse t.toDisplayName = Except.ok t) ∧
    (MapResolution.parse "Low").map MapResolution.toDisplayName = Except.ok "Low" ∧
    (MapResolution.parse "High").map MapResolution.toDisplayName = Except.ok "High" := by
  refine ⟨fun t => ?_, rfl, rfl⟩
  cases t <;> rfl

/-- C4: parsing any string other than the two canonical names, the empty
string included, fails with the VariantNotFound error and never returns a
default or any other value. -/
theorem parse_unknown_name_fails (s : String) (h1 : s ≠ "Low") (h2 : s ≠ "High") :
    MapResolution.parse s = Except.error ParseError.VariantNotFound := by
  simp [MapResolution.parse, h1, h2]

/-- Witness for C4 at the empty string. -/
theorem parse_unknown_name_fails_witness :
    ("" ≠ "Low") ∧ ("" ≠ "High") ∧
    MapResolution.parse "" = Except.error ParseError.VariantNotFound :=
  ⟨by decide, by decide, parse_unknown_name_fails "" (by decide) (by decide)⟩

/-- C5: the default Map has resolution Low and the reset/no-op sentinel
color. -/
theorem map_default_fields :
    Map.default.resolution = MapResolution.Low ∧ Map.default.color = Color.Reset :=
  ⟨rfl, rfl⟩

/-- C6: draw is idempotent: drawing the same shape twice in succession leaves
the painter in the same state as drawing it once, because every point is
re-evaluated and every paint overwrites its cell. -/
theorem draw_idempotent (m : Map) (p : Painter) :
    m.draw (m.draw p) = m.draw p := by
  unfold Map.draw
  apply drawAux_eq_of_painted
  intro pt hmem sc hsc
  have hget : p.get_point pt.1 pt.2 = some sc := by
    rw [get_point_drawAux] at hsc
    exact hsc
  rw [drawAux_lookup]
  have hany : (m.resolution.data).any
      (fun pt' => decide (p.get_point pt'.1 pt'.2 = some sc)) = true :=
    List.any_eq_true.mpr ⟨pt, hmem, by simp [hget]⟩
  simp [hany]

/-- C7: draw is deterministic: two painters that agree on every configured
field (bounds, screen size) and on the initial surface receive identical
final output from draw on equal shapes. -/
theorem draw_deterministic (m : Map) (p q : Painter)
    (hxmin : p.xmin = q.xmin) (hxmax : p.xmax = q.xmax)
    (hymin : p.ymin = q.ymin) (hymax : p.ymax = q.ymax)
    (hw : p.width = q.width) (hh : p.height = q.height)
    (hcells : p.cells = q.cells) :
    m.draw p = m.draw q := by
  have hpq : p = q := by
    cases p
    cases q
    simp_all
  rw [hpq]

/-- Witness for C7: the default shape on the spec's demo configuration. -/
theorem draw_deterministic_witness :
    Map.default.draw demoPainter = Map.default.draw demoPainter :=
  draw_deterministic Map.default demoPainter demoPainter rfl rfl rfl rfl rfl rfl rfl

/-- C8: draw writes only through the painter's surface: every configured
field of the painter (bounds, screen size) is unchanged by draw, and in
particular the world-to-screen mapping after draw is the one before. -/
theorem draw_frame_only_cells (m : Map) (p : Painter) :
    (m.draw p).xmin = p.xmin ∧ (m.draw p).xmax = p.xmax ∧
    (m.draw p).ymin = p.ymin ∧ (m.draw p).ymax = p.ymax ∧
    (m.draw p).width = p.width ∧ (m.draw p).height = p.height ∧
    (∀ x y, (m.draw p).get_point x y = p.get_point x y) := by
  unfold Map.draw
  obtain ⟨h1, h2, h3, h4, h5, h6⟩ := drawAux_projs m.color m.resolution.data p
  exact ⟨h1, h2, h3, h4, h5, h6,
    fun x y => get_point_drawAux m.color m.resolution.data p x y⟩

/-- C9: draw terminates after exactly one iteration per dataset element: the
fuel-indexed loop completes with fuel equal to the dataset length and
produces the draw result, and it completes exactly when the fuel is at least
the dataset length. -/
theorem draw_terminates_in_dataset_length (m : Map) (p : Painter) :
    drawFuel m.color m.resolution.data.length m.resolution.data p = some (m.draw p) ∧
    (∀ fuel : Nat, (drawFuel m.color fuel m.resolution.data p).isSome = true ↔
      m.resolution.data.length ≤ fuel) :=
  ⟨drawFuel_exact m.color m.resolution.data p,
   fun fuel => drawFuel_isSome_iff m.color m.resolution.data fuel p⟩

/-- C10: draw does not special-case the reset sentinel color: with color
Reset it still paints the sentinel at every cell some dataset point maps to,
and the set of painted cells is the same as with any other color. -/
theorem draw_reset_color_not_special (res : MapResolution) (col : Color) (p : Painter)
    (c : Nat × Nat) :
    lookupCell ((Map.mk res Color.Reset).draw p).cells c =
      (if (res.data).any (fun pt => decide (p.get_point pt.1 pt.2 = some c)) then
        some Color.Reset
      else lookupCell p.cells c) ∧
    (lookupCell ((Map.mk res col).draw p).cells c).isSome =
      (lookupCell ((Map.mk res Color.Reset).draw p).cells c).isSome := by
  constructor
  · exact drawAux_lookup Color.Reset res.data p c
  · rw [show (Map.mk res col).draw p = drawAux col res.data p from rfl,
      show (Map.mk res Color.Reset).draw p = drawAux Color.Reset res.data p from rfl,
      drawAux_lookup, drawAux_lookup]
    cases hany : (res.data).any (fun pt => decide (p.get_point pt.1 pt.2 = some c)) <;>
      simp [hany]
